import Mathlib

/-!
Shallow embedding of the world/interaction engine of the grid
collection-and-crafting game (src/src/main.ts, the finished "D3.d" build;
src/unnamed/part_000 is an earlier draft of the same script and is modelled
separately only where a claim refers to it).

Pure DOM/leaflet rendering (marker positions, rectangle styling, tooltips)
is not part of the engine state; the strings the engine writes into the
status panel and the inventory panel are modelled, because the interaction
outcomes ("too far", "cannot perform", win banner) are surfaced through
them.  The external pseudo-random source `luck` (imported from _luck.ts,
not part of this repository) is passed as an oracle `String → ℚ`, which is
exactly the contract the engine relies on: a deterministic string-keyed
value in [0,1).
-/

namespace D3

/-! ### Constants (main.ts lines 15-19) -/

/-- `TILE_DEG = 1e-4`: degrees per grid cell. -/
def TILE_DEG : ℚ := 1 / 10000

/-- `INTERACT_RANGE = 3`: cells the player can interact with. -/
def INTERACT_RANGE : ℕ := 3

/-- `GRID_RADIUS = 12`: cells drawn around the map center. -/
def GRID_RADIUS : ℤ := 12

/-- `WIN_VALUE = 32`: winning token value. -/
def WIN_VALUE : ℤ := 32

/-! ### Data model -/

/-- `type CellState = { token: number | null }` (main.ts line 21). -/
structure CellState where
  token : Option ℤ
  deriving DecidableEq, Repr

/-- The movement mode, `"buttons" | "geolocation"` (main.ts line 36). -/
inductive MovementMode where
  | buttons
  | geolocation
  deriving DecidableEq, Repr

/-- The contents of a JS `Map<string, CellState>` in insertion order.
`modifiedCells` is the sparse override store (the Memento). -/
abbrev Store := List (String × CellState)

/-- `Map.get`: the value of the first (unique) entry with the given key. -/
def mapGet (m : Store) (k : String) : Option CellState :=
  match m with
  | [] => none
  | (k', v') :: rest => if k' = k then some v' else mapGet rest k

/-- `Map.set`: replace the entry in place if the key is present
(JS `Map.set` keeps insertion order), else append it. -/
def mapSet (m : Store) (k : String) (v : CellState) : Store :=
  match m with
  | [] => [(k, v)]
  | (k', v') :: rest =>
      if k' = k then (k, v) :: rest else (k', v') :: mapSet rest k v

/-- `Map.has`. -/
def mapHas (m : Store) (k : String) : Bool :=
  (mapGet m k).isSome

theorem mapGet_mapSet (m : Store) (k k' : String) (v : CellState) :
    mapGet (mapSet m k v) k' = if k = k' then some v else mapGet m k' := by
  induction m with
  | nil =>
      by_cases h : k = k' <;> simp [mapSet, mapGet, h]
  | cons hd tl ih =>
      obtain ⟨k₀, v₀⟩ := hd
      by_cases h₀ : k₀ = k
      · subst h₀
        by_cases h : k₀ = k'
        · subst h; simp [mapSet, mapGet]
        · simp [mapSet, mapGet, h]
      · by_cases h : k₀ = k'
        · subst h
          have hk : ¬k = k₀ := fun hh => h₀ hh.symm
          simp [mapSet, mapGet, h₀, hk]
        · simp [mapSet, mapGet, h₀, h, ih]

theorem mapSet_ne_nil (m : Store) (k : String) (v : CellState) :
    mapSet m k v ≠ [] := by
  cases m with
  | nil => simp [mapSet]
  | cons hd tl =>
      obtain ⟨k₀, v₀⟩ := hd
      by_cases h : k₀ = k <;> simp [mapSet, h]

/-- The snapshot written to durable storage by `saveState` (main.ts
lines 58-67): `{ playerI, playerJ, held, modifiedCells, movementMode }`. -/
structure Snapshot where
  playerI : ℤ
  playerJ : ℤ
  held : Option ℤ
  modifiedCells : Store
  movementMode : MovementMode
  deriving DecidableEq, Repr

/-- The full mutable state of a session: the runtime variables of main.ts
(`playerI`, `playerJ`, `held`, `modifiedCells`, the movement facade's
active mode), the durable storage slot under `STORAGE_KEY`, the two text
panels the engine writes, the keys of the leaflet layer map `cellLayers`,
the map viewport center cell, and the geolocation controller's
`lastSeenCell` debounce memory. -/
structure World where
  playerI : ℤ
  playerJ : ℤ
  held : Option ℤ
  modifiedCells : Store
  movementMode : MovementMode
  storage : Option Snapshot
  statusPanel : String
  inventoryHtml : String
  cellLayers : List String
  mapCenter : ℤ × ℤ
  lastSeenCell : Option (ℤ × ℤ)
  deriving DecidableEq, Repr

/-! ### Coordinate keys (main.ts lines 88-90, 202, 204) -/

/-- `cellKey(i, j)` = `` `${i},${j}` ``. -/
def cellKey (i j : ℤ) : String := toString i ++ "," ++ toString j

/-- The first-draw key `` `spawn:${i},${j}` ``. -/
def spawnKey (i j : ℤ) : String := "spawn:" ++ toString i ++ "," ++ toString j

/-- The second-draw key `` `value:${i},${j}` ``. -/
def valueKey (i j : ℤ) : String := "value:" ++ toString i ++ "," ++ toString j

/-! ### Token generation (main.ts lines 201-221) -/

/-- `generateTokenFlyweight(i, j)`: spawn iff the first draw is below 0.2;
the value comes from a second, differently-keyed draw in equal thirds. -/
def generateTokenFlyweight (luck : String → ℚ) (i j : ℤ) : Option ℤ :=
  let roll := luck (spawnKey i j)
  if roll < 0.2 then
    let r2 := luck (valueKey i j)
    if r2 < 0.33 then some 1
    else if r2 < 0.66 then some 2
    else some 4
  else none

/-- `getCellToken(i, j)`: the effective content of a cell — the override
if one is recorded, else the generator's output. -/
def getCellToken (luck : String → ℚ) (cells : Store) (i j : ℤ) : Option ℤ :=
  match mapGet cells (cellKey i j) with
  | some st => st.token
  | none => generateTokenFlyweight luck i j

/-- `saveState()` (main.ts lines 58-67): write-through serialization of the
runtime state into the single storage slot. -/
def saveState (w : World) : World :=
  { w with storage := some { playerI := w.playerI, playerJ := w.playerJ,
                             held := w.held, modifiedCells := w.modifiedCells,
                             movementMode := w.movementMode } }

/-- `clearSavedState()` (main.ts lines 69-71). -/
def clearSavedState (w : World) : World := { w with storage := none }

/-! ### Inventory / status panels (main.ts lines 312-318, 329-354) -/

/-- Status message for an out-of-range click (main.ts line 331). -/
def tooFarMessage : String := "That cell is too far away!"

/-- Status message for an in-range but invalid action (main.ts line 353). -/
def cannotMessage : String := "Can\x27t do that!"

/-- The win banner of the earlier draft (src/unnamed/part_000 line 154). -/
def winMessage : String := "🏆 You win! Congratulations!"

/-- The inventory panel HTML produced by `updateInventoryUI` in the
finished main.ts (lines 312-318): the held value plus a *static* hint
showing the win threshold.  It performs no comparison against
`WIN_VALUE` and never writes the status panel. -/
def inventoryHtmlFor (held : Option ℤ) : String :=
  "<h3>Inventory</h3> <div>Holding: <b>"
    ++ (match held with | none => "nothing" | some v => toString v)
    ++ "</b></div> <div>Win: craft token ≥ " ++ toString WIN_VALUE
    ++ "</div>"

/-- `updateInventoryUI()` of the finished main.ts: rewrites only the
inventory panel. -/
def updateInventoryUI (w : World) : World :=
  { w with inventoryHtml := inventoryHtmlFor w.held }

/-- What the earlier draft's `updateInventoryUI` (src/unnamed/part_000
lines 146-160) wrote into the status panel: the win banner when the held
token has reached `WIN_VALUE`, the empty string otherwise.  The finished
main.ts dropped this check. -/
def updateInventoryUIDraftStatus (held : Option ℤ) : String :=
  match held with
  | some v => if WIN_VALUE ≤ v then winMessage else ""
  | none => ""

/-! ### Interaction (main.ts lines 216-221, 324-354) -/

/-- `setCellToken(i, j, token)`: record an explicit override, then persist
immediately (the `redrawCell` call only refreshes a leaflet icon). -/
def setCellToken (w : World) (i j : ℤ) (token : Option ℤ) : World :=
  saveState { w with modifiedCells := mapSet w.modifiedCells (cellKey i j) { token := token } }

/-- `inRange(i, j)`: `|i - playerI| ≤ 3 && |j - playerJ| ≤ 3`, i.e. the
Chebyshev distance to the player is at most `INTERACT_RANGE`. -/
def inRange (w : World) (i j : ℤ) : Bool :=
  decide ((i - w.playerI).natAbs ≤ INTERACT_RANGE)
    && decide ((j - w.playerJ).natAbs ≤ INTERACT_RANGE)

/-- `handleCellClick(i, j)`: reject out-of-range clicks; pick up when
empty-handed over a token; merge when the held value equals the cell's
value (doubling it); reject everything else. -/
def handleCellClick (luck : String → ℚ) (w : World) (i j : ℤ) : World :=
  if inRange w i j then
    let cellValue := getCellToken luck w.modifiedCells i j
    match w.held, cellValue with
    | none, some v =>
        saveState (updateInventoryUI (setCellToken { w with held := some v } i j none))
    | some h, some v =>
        if h = v then
          saveState (updateInventoryUI (setCellToken { w with held := none } i j (some (h * 2))))
        else { w with statusPanel := cannotMessage }
    | _, _ => { w with statusPanel := cannotMessage }
  else { w with statusPanel := tooFarMessage }

/-! ### Viewport culling (main.ts lines 278-304) -/

/-- `cellForLatLng(lat, lng)` (main.ts lines 81-86): floor quantization of
a geographic position into a grid cell. -/
def cellForLatLng (lat lng : ℚ) : ℤ × ℤ :=
  (⌊lat / TILE_DEG⌋, ⌊lng / TILE_DEG⌋)

/-- The keys `drawCell`/`redrawCell` are asked for by `updateCells`: every
cell within `GRID_RADIUS` of the map-center cell, in loop order. -/
def neededKeys (ci cj : ℤ) : List String :=
  (List.range (2 * 12 + 1)).flatMap fun a =>
    (List.range (2 * 12 + 1)).map fun b =>
      cellKey (ci - GRID_RADIUS + a) (cj - GRID_RADIUS + b)

/-- The effect of `updateCells` on the key set of the leaflet layer map
`cellLayers`: missing needed cells are drawn (appended in loop order,
`Map.set` appends), then layers for cells no longer needed are removed.
The loop body touches only `cellLayers` and leaflet objects; the comment
at main.ts line 301 — "do NOT delete modifiedCells — that preserves
Memento" — marks that the override store is deliberately untouched. -/
def updateCellsLayers (layers : List String) (ci cj : ℤ) : List String :=
  let needed := neededKeys ci cj
  let afterDraw := layers ++ needed.filter (fun k => !layers.contains k)
  afterDraw.filter (fun k => needed.contains k)

/-- `updateCells()` run with the map centered on cell `(ci, cj)`. -/
def updateCells (w : World) (ci cj : ℤ) : World :=
  { w with cellLayers := updateCellsLayers w.cellLayers ci cj }

/-! ### Movement (main.ts lines 366-373, 392-416, 472-531, 537-553) -/

/-- `movePlayer(di, dj)`: shift the position, re-center the map on the
player (`map.setView(playerPos)`), refresh the visible cells, persist. -/
def movePlayer (w : World) (di dj : ℤ) : World :=
  let w1 := { w with playerI := w.playerI + di, playerJ := w.playerJ + dj }
  let w2 := { w1 with mapCenter := (w1.playerI, w1.playerJ) }
  saveState (updateCells w2 w1.playerI w1.playerJ)

/-- The four manual-step directions.  The on-screen N/S/E/W buttons
(main.ts lines 537-553) and the arrow keys (ButtonController, lines
392-416) both route through `movementFacade.manualMove`, with N/ArrowUp
= (1,0), S/ArrowDown = (-1,0), E/ArrowRight = (0,1), W/ArrowLeft =
(0,-1). -/
inductive Dir where
  | north
  | south
  | east
  | west
  deriving DecidableEq, Repr

/-- The i-component of a manual step. -/
def dirDeltaI : Dir → ℤ
  | .north => 1
  | .south => -1
  | .east => 0
  | .west => 0

/-- The j-component of a manual step. -/
def dirDeltaJ : Dir → ℤ
  | .north => 0
  | .south => 0
  | .east => 1
  | .west => -1

/-- `movementFacade.manualMove`: delegates to `movePlayer` unconditionally
(the on-screen buttons work in either mode; the keyboard listener is only
attached while the ButtonController is active, but it calls the same
facade method). -/
def manualMove (w : World) (d : Dir) : World :=
  movePlayer w (dirDeltaI d) (dirDeltaJ d)

/-- `movementFacade.setMode(mode)`: disable the previous controller,
enable the new one, relabel the toggle button, persist.  The available,
permission-granted geolocation path is modelled; the unavailable-fallback
path only switches back to `buttons` through this same method. -/
def setMode (w : World) (m : MovementMode) : World :=
  saveState { w with movementMode := m }

/-- One position callback of the GeoController watcher (main.ts lines
432-452).  The watcher is only subscribed while geolocation mode is
active (`clearWatch` on disable), and a callback moves the player only
when the quantized cell differs from `lastSeenCell`. -/
def geoUpdate (w : World) (lat lng : ℚ) : World :=
  if w.movementMode = .geolocation then
    let c := cellForLatLng lat lng
    if w.lastSeenCell = some c then w
    else
      let w1 := { w with lastSeenCell := some c, playerI := c.1, playerJ := c.2,
                         mapCenter := c }
      saveState (updateCells w1 c.1 c.2)
  else w

/-! ### New game and startup (main.ts lines 518-531, 579-583) -/

/-- The confirmed branch of the `newGameBtn` click handler: clear the
stored snapshot, reset the runtime variables to `defaultState`, redraw
(player marker, visible cells, inventory), switch the facade back to
button mode — which calls `saveState()` — and save once more. -/
def newGame (w : World) : World :=
  let w1 := clearSavedState { w with playerI := 0, playerJ := 0, held := none,
                                     modifiedCells := [] }
  let w2 := updateInventoryUI (updateCells w1 w1.mapCenter.1 w1.mapCenter.2)
  saveState (setMode w2 .buttons)

/-- The runtime state restored from `defaultState` before the startup
rendering runs: position (0,0), nothing held, empty override store,
button mode, nothing yet saved. -/
def freshWorld : World :=
  { playerI := 0, playerJ := 0, held := none, modifiedCells := [],
    movementMode := .buttons, storage := none, statusPanel := "",
    inventoryHtml := "", cellLayers := [], mapCenter := (0, 0),
    lastSeenCell := none }

/-- The state after the startup sequence on a machine with no stored
snapshot: `movementFacade.init("buttons")` (which saves), then
`renderPlayer(); updateCells(); updateInventoryUI(); saveState()`. -/
def defaultWorld : World :=
  saveState (updateInventoryUI (updateCells (setMode freshWorld .buttons) 0 0))

/-! ### The engine's operations -/

/-- One externally-triggered engine operation: a cell click, a manual
step, a geolocation callback, a mode switch, a confirmed New Game, or a
viewport scroll (`moveend` firing `updateCells` at a new map center). -/
inductive Op where
  | click (i j : ℤ)
  | move (d : Dir)
  | geo (lat lng : ℚ)
  | mode (m : MovementMode)
  | reset
  | viewport (ci cj : ℤ)
  deriving DecidableEq, Repr

/-- Execute one operation. -/
def step (luck : String → ℚ) (w : World) : Op → World
  | .click i j => handleCellClick luck w i j
  | .move d => manualMove w d
  | .geo lat lng => geoUpdate w lat lng
  | .mode m => setMode w m
  | .reset => newGame w
  | .viewport ci cj => updateCells { w with mapCenter := (ci, cj) } ci cj

/-- Execute a sequence of operations. -/
def runOps (luck : String → ℚ) (w : World) : List Op → World
  | [] => w
  | op :: rest => runOps luck (step luck w op) rest

/-! ### Persistence load (main.ts lines 40-56, 96-109)

`loadState` works on whatever `JSON.parse` produced, so its input is
modelled as a JSON value.  JS `NaN` is modelled as `none : Option ℚ`. -/

/-- A parsed JSON value. -/
inductive JSVal where
  | null
  | bool (b : Bool)
  | num (q : ℚ)
  | str (s : String)
  | arr (xs : List JSVal)
  | obj (fields : List (String × JSVal))

/-- First binding of a key in a JSON object's field list (`JSON.parse`
never produces duplicate keys, so the list is assumed duplicate-free). -/
def lookupField (fields : List (String × JSVal)) (k : String) : Option JSVal :=
  match fields with
  | [] => none
  | (k', v) :: rest => if k' = k then some v else lookupField rest k

/-- JS property access `parsed.<field>` for the snapshot field names:
`undefined` (`none`) unless the value is an object carrying the field.
(Strings and arrays do own numeric index properties and `length`, none of
which collide with the snapshot's field names.) -/
def jsGet : JSVal → String → Option JSVal
  | .obj fields, k => lookupField fields k
  | _, _ => none

/-- The `??` operator: take the default exactly when the left side is
`undefined` or `null`. -/
def orDefault (v : Option JSVal) (d : JSVal) : JSVal :=
  match v with
  | none => d
  | some .null => d
  | some x => x

/-- The JS `Number()` coercion, with `none` standing for `NaN`:
`Number(null) = 0`, `Number(true) = 1`, `Number(false) = 0`, numbers pass
through, objects coerce to `NaN`.  String (and array-via-string) numeric
parsing is an external JS builtin and is passed in as the oracle
`strToNum`; no theorem below feeds `Number()` a string or an array. -/
def jsNumber (strToNum : String → Option ℚ) : JSVal → Option ℚ
  | .null => some 0
  | .bool b => some (if b then 1 else 0)
  | .num q => some q
  | .str s => strToNum s
  | .arr _ => none
  | .obj _ => none

/-- What `loadState()` returns: each field holds exactly what the code
computed for it, coerced numbers as `Option ℚ` (`none` = `NaN`) and the
other three fields verbatim JSON. -/
structure LoadedState where
  playerI : Option ℚ
  playerJ : Option ℚ
  held : JSVal
  modifiedCells : JSVal
  movementMode : JSVal

/-- The `{ ...defaultState }` result (main.ts lines 31-37). -/
def defaultLoaded : LoadedState :=
  { playerI := some 0, playerJ := some 0, held := .null,
    modifiedCells := .obj [], movementMode := .str "buttons" }

/-- What `localStorage` + `JSON.parse` delivered: no stored string (or an
empty one, since `if (!raw)` also fires on `""`), an unparseable string
(the `catch` branch), or a parsed JSON value. -/
inductive RawSnapshot where
  | missing
  | corrupt
  | parsed (j : JSVal)

/-- `loadState()` (main.ts lines 40-56): whole-snapshot defaults when
storage is missing or unparseable; otherwise per-field `??` defaulting —
position components additionally run through `Number()`. -/
def loadState (strToNum : String → Option ℚ) : RawSnapshot → LoadedState
  | .missing => defaultLoaded
  | .corrupt => defaultLoaded
  | .parsed p =>
      { playerI := jsNumber strToNum (orDefault (jsGet p "playerI") (.num 0)),
        playerJ := jsNumber strToNum (orDefault (jsGet p "playerJ") (.num 0)),
        held := orDefault (jsGet p "held") .null,
        modifiedCells := orDefault (jsGet p "modifiedCells") (.obj []),
        movementMode := orDefault (jsGet p "movementMode") (.str "buttons") }

/-- `Object.entries` as used by the restore loop (main.ts lines 103-109):
objects yield their field list, strings and arrays their indexed
elements, boxed primitives nothing.  (`null` would throw, but the load
path has already replaced `null` by `{}`.) -/
def jsEntries : JSVal → List (String × JSVal)
  | .obj fields => fields
  | .str s => s.toList.enum.map fun p => (toString p.1, .str (String.mk [p.2]))
  | .arr xs => xs.enum.map fun p => (toString p.1, p.2)
  | _ => []

/-- The override-store contents restored into the runtime `modifiedCells`
map from a loaded snapshot. -/
def restoredOverrides (ls : LoadedState) : List (String × JSVal) :=
  jsEntries ls.modifiedCells

/-! ### Frame lemmas -/

@[simp] theorem saveState_playerI (w : World) : (saveState w).playerI = w.playerI := rfl

@[simp] theorem saveState_playerJ (w : World) : (saveState w).playerJ = w.playerJ := rfl

@[simp] theorem saveState_held (w : World) : (saveState w).held = w.held := rfl

@[simp] theorem saveState_modifiedCells (w : World) :
    (saveState w).modifiedCells = w.modifiedCells := rfl

@[simp] theorem saveState_statusPanel (w : World) :
    (saveState w).statusPanel = w.statusPanel := rfl

@[simp] theorem saveState_movementMode (w : World) :
    (saveState w).movementMode = w.movementMode := rfl

@[simp] theorem saveState_storage (w : World) :
    (saveState w).storage = some { playerI := w.playerI, playerJ := w.playerJ,
                                   held := w.held, modifiedCells := w.modifiedCells,
                                   movementMode := w.movementMode } := rfl

@[simp] theorem updateInventoryUI_playerI (w : World) :
    (updateInventoryUI w).playerI = w.playerI := rfl

@[simp] theorem updateInventoryUI_playerJ (w : World) :
    (updateInventoryUI w).playerJ = w.playerJ := rfl

@[simp] theorem updateInventoryUI_held (w : World) :
    (updateInventoryUI w).held = w.held := rfl

@[simp] theorem updateInventoryUI_modifiedCells (w : World) :
    (updateInventoryUI w).modifiedCells = w.modifiedCells := rfl

@[simp] theorem updateInventoryUI_statusPanel (w : World) :
    (updateInventoryUI w).statusPanel = w.statusPanel := rfl

@[simp] theorem updateInventoryUI_storage (w : World) :
    (updateInventoryUI w).storage = w.storage := rfl

@[simp] theorem updateCells_playerI (w : World) (ci cj : ℤ) :
    (updateCells w ci cj).playerI = w.playerI := rfl

@[simp] theorem updateCells_playerJ (w : World) (ci cj : ℤ) :
    (updateCells w ci cj).playerJ = w.playerJ := rfl

@[simp] theorem updateCells_held (w : World) (ci cj : ℤ) :
    (updateCells w ci cj).held = w.held := rfl

@[simp] theorem updateCells_modifiedCells (w : World) (ci cj : ℤ) :
    (updateCells w ci cj).modifiedCells = w.modifiedCells := rfl

@[simp] theorem updateCells_statusPanel (w : World) (ci cj : ℤ) :
    (updateCells w ci cj).statusPanel = w.statusPanel := rfl

@[simp] theorem updateCells_storage (w : World) (ci cj : ℤ) :
    (updateCells w ci cj).storage = w.storage := rfl

@[simp] theorem setCellToken_playerI (w : World) (i j : ℤ) (t : Option ℤ) :
    (setCellToken w i j t).playerI = w.playerI := rfl

@[simp] theorem setCellToken_playerJ (w : World) (i j : ℤ) (t : Option ℤ) :
    (setCellToken w i j t).playerJ = w.playerJ := rfl

@[simp] theorem setCellToken_held (w : World) (i j : ℤ) (t : Option ℤ) :
    (setCellToken w i j t).held = w.held := rfl

@[simp] theorem setCellToken_modifiedCells (w : World) (i j : ℤ) (t : Option ℤ) :
    (setCellToken w i j t).modifiedCells
      = mapSet w.modifiedCells (cellKey i j) { token := t } := rfl

@[simp] theorem setCellToken_statusPanel (w : World) (i j : ℤ) (t : Option ℤ) :
    (setCellToken w i j t).statusPanel = w.statusPanel := rfl

/-- `inRange` is exactly the Chebyshev-distance-at-most-3 test. -/
theorem inRange_iff_chebyshev (w : World) (i j : ℤ) :
    inRange w i j = true
      ↔ max (i - w.playerI).natAbs (j - w.playerJ).natAbs ≤ 3 := by
  simp [inRange, INTERACT_RANGE, Nat.max_le]

/-! ### Sample inputs used by the witnesses -/

/-- A luck oracle whose draws at cell (2,1) are (0.1, 0.7): a token of
value 4 spawns there, and nowhere else. -/
def luckA : String → ℚ := fun s =>
  if s = "spawn:2,1" then 1 / 10 else if s = "value:2,1" then 7 / 10 else 1 / 2

/-- A luck oracle whose draws at cell (0,0) are (0.1, 0.5). -/
def luckS : String → ℚ := fun s =>
  if s = "spawn:0,0" then 1 / 10 else 1 / 2

/-- A runtime state carrying one recorded override. -/
def sampleStoreWorld : World :=
  { freshWorld with modifiedCells := [(cellKey 0 0, { token := some 4 })] }

/-- Under `luckA` the effective content of the untouched cell (2,1) is a
token of value 4. -/
theorem getCellToken_luckA_21 : getCellToken luckA ([] : Store) 2 1 = some 4 := by
  have e1 : luckA (spawnKey 2 1) = 1 / 10 := rfl
  have e2 : luckA (valueKey 2 1) = 7 / 10 := rfl
  unfold getCellToken mapGet generateTokenFlyweight
  rw [e1, e2]
  rw [if_neg (by norm_num : ¬(7 / 10 : ℚ) < 0.33),
    if_neg (by norm_num : ¬(7 / 10 : ℚ) < 0.66),
    if_pos (by norm_num : (1 / 10 : ℚ) < 0.2)]

/-! ### Claims -/

/-- C1: from any state with nothing held, clicking a cell within Chebyshev
distance 3 whose effective content is a token of value `v` picks it up:
the held token becomes `v`, the cell's effective content becomes absent,
an explicit absent override is recorded for the cell, and no rejection
message is emitted. -/
theorem C1_pickup_within_range (luck : String → ℚ) (w : World) (i j v : ℤ)
    (hr : max (i - w.playerI).natAbs (j - w.playerJ).natAbs ≤ 3)
    (hh : w.held = none)
    (hc : getCellToken luck w.modifiedCells i j = some v) :
    (handleCellClick luck w i j).held = some v ∧
    getCellToken luck (handleCellClick luck w i j).modifiedCells i j = none ∧
    mapGet (handleCellClick luck w i j).modifiedCells (cellKey i j)
      = some { token := none } ∧
    (handleCellClick luck w i j).statusPanel = w.statusPanel := by
  have hin : inRange w i j = true := (inRange_iff_chebyshev w i j).mpr hr
  unfold handleCellClick
  rw [hin, if_pos rfl]
  simp only [hh, hc]
  refine ⟨rfl, ?_, ?_, rfl⟩
  · simp [getCellToken, mapGet_mapSet]
  · simp [mapGet_mapSet]

/-- Witness for C1 at the spec's Scenario 2: player at (0,0) holding
nothing, cell (2,1) holding a token of value 4. -/
theorem C1_pickup_within_range_witness :
    (handleCellClick luckA freshWorld 2 1).held = some 4 ∧
    getCellToken luckA (handleCellClick luckA freshWorld 2 1).modifiedCells 2 1 = none ∧
    mapGet (handleCellClick luckA freshWorld 2 1).modifiedCells (cellKey 2 1)
      = some { token := none } ∧
    (handleCellClick luckA freshWorld 2 1).statusPanel = freshWorld.statusPanel :=
  C1_pickup_within_range luckA freshWorld 2 1 4 (by decide) rfl getCellToken_luckA_21

/-- C2: from any state holding `v`, clicking a cell within range whose
effective content is a token of value exactly `v` merges: the cell's
content becomes a token of value `2v` (recorded as an override), the held
token becomes none, and no rejection message is emitted. -/
theorem C2_merge_within_range (luck : String → ℚ) (w : World) (i j v : ℤ)
    (hr : max (i - w.playerI).natAbs (j - w.playerJ).natAbs ≤ 3)
    (hh : w.held = some v)
    (hc : getCellToken luck w.modifiedCells i j = some v) :
    (handleCellClick luck w i j).held = none ∧
    getCellToken luck (handleCellClick luck w i j).modifiedCells i j = some (2 * v) ∧
    mapGet (handleCellClick luck w i j).modifiedCells (cellKey i j)
      = some { token := some (2 * v) } ∧
    (handleCellClick luck w i j).statusPanel = w.statusPanel := by
  have hin : inRange w i j = true := (inRange_iff_chebyshev w i j).mpr hr
  unfold handleCellClick
  rw [hin, if_pos rfl]
  simp only [hh, hc, if_pos rfl]
  have h2 : v * 2 = 2 * v := by ring
  refine ⟨rfl, ?_, ?_, rfl⟩
  · simp [getCellToken, mapGet_mapSet, h2]
  · simp [mapGet_mapSet, h2]

/-- Witness for C2: player at (0,0) holding 4, cell (2,1) holding 4;
the click leaves a token of value 8 on the cell and empties the hand. -/
theorem C2_merge_within_range_witness :
    (handleCellClick luckA { freshWorld with held := some 4 } 2 1).held = none ∧
    getCellToken luckA
        (handleCellClick luckA { freshWorld with held := some 4 } 2 1).modifiedCells 2 1
      = some (2 * 4) ∧
    mapGet (handleCellClick luckA { freshWorld with held := some 4 } 2 1).modifiedCells
        (cellKey 2 1) = some { token := some (2 * 4) } ∧
    (handleCellClick luckA { freshWorld with held := some 4 } 2 1).statusPanel
      = ({ freshWorld with held := some 4 } : World).statusPanel :=
  C2_merge_within_range luckA { freshWorld with held := some 4 } 2 1 4
    (by decide) rfl getCellToken_luckA_21

/-- The rule combinations `handleCellClick` rejects once the range check
has passed: empty-handed over an empty cell, carrying over an empty cell,
or carrying a value different from the cell's token. -/
def invalidCombo (luck : String → ℚ) (w : World) (i j : ℤ) : Prop :=
  (w.held = none ∧ getCellToken luck w.modifiedCells i j = none) ∨
  (∃ h, w.held = some h ∧ getCellToken luck w.modifiedCells i j = none) ∨
  (∃ h v, w.held = some h ∧ getCellToken luck w.modifiedCells i j = some v ∧ h ≠ v)

/-- C3: a click is rejected — leaving position, held token, override store
and stored snapshot untouched — exactly when the Chebyshev distance
exceeds 3 (with the "too far" outcome; distance 3 still interacts) or the
range check passes but the rule combination is invalid (with the "cannot
perform" outcome). -/
theorem C3_rejection_iff (luck : String → ℚ) (w : World) (i j : ℤ) :
    (3 < max (i - w.playerI).natAbs (j - w.playerJ).natAbs →
      handleCellClick luck w i j = { w with statusPanel := tooFarMessage }) ∧
    (max (i - w.playerI).natAbs (j - w.playerJ).natAbs ≤ 3 →
      invalidCombo luck w i j →
      handleCellClick luck w i j = { w with statusPanel := cannotMessage }) ∧
    ((3 < max (i - w.playerI).natAbs (j - w.playerJ).natAbs ∨
      (max (i - w.playerI).natAbs (j - w.playerJ).natAbs ≤ 3 ∧
        invalidCombo luck w i j)) ↔
      ((handleCellClick luck w i j).playerI = w.playerI ∧
       (handleCellClick luck w i j).playerJ = w.playerJ ∧
       (handleCellClick luck w i j).held = w.held ∧
       (handleCellClick luck w i j).modifiedCells = w.modifiedCells ∧
       (handleCellClick luck w i j).storage = w.storage)) := by
  by_cases hin : inRange w i j = true
  · have hcheb := (inRange_iff_chebyshev w i j).mp hin
    have hreject : invalidCombo luck w i j →
        handleCellClick luck w i j = { w with statusPanel := cannotMessage } := by
      intro hbad
      unfold handleCellClick
      rw [hin, if_pos rfl]
      rcases hbad with ⟨hh, hc⟩ | ⟨h, hh, hc⟩ | ⟨h, v, hh, hc, hne⟩
      · simp only [hh, hc]
      · simp only [hh, hc]
      · simp only [hh, hc, if_neg hne]
    refine ⟨fun hgt => absurd hcheb (by omega), fun _ => hreject, ?_, ?_⟩
    · rintro (hgt | ⟨_, hbad⟩)
      · exact absurd hcheb (by omega)
      · rw [hreject hbad]
        exact ⟨rfl, rfl, rfl, rfl, rfl⟩
    · intro hsame
      have hheld := hsame.2.2.1
      refine Or.inr ⟨hcheb, ?_⟩
      rcases hh : w.held with _ | h <;>
        rcases hc : getCellToken luck w.modifiedCells i j with _ | v
      · exact Or.inl ⟨hh, hc⟩
      · exfalso
        have hpick : (handleCellClick luck w i j).held = some v := by
          unfold handleCellClick
          rw [hin, if_pos rfl]
          simp only [hh, hc]
          simp
        rw [hpick, hh] at hheld
        exact Option.noConfusion hheld
      · exact Or.inr (Or.inl ⟨h, hh, hc⟩)
      · by_cases hev : h = v
        · exfalso
          subst hev
          have hmerge : (handleCellClick luck w i j).held = none := by
            unfold handleCellClick
            rw [hin, if_pos rfl]
            simp only [hh, hc, if_pos rfl]
            simp
          rw [hmerge, hh] at hheld
          exact Option.noConfusion hheld
        · exact Or.inr (Or.inr ⟨h, v, hh, hc, hev⟩)
  · have hcheb : 3 < max (i - w.playerI).natAbs (j - w.playerJ).natAbs := by
      by_contra hle
      exact hin ((inRange_iff_chebyshev w i j).mpr (by omega))
    have hfar : handleCellClick luck w i j = { w with statusPanel := tooFarMessage } := by
      unfold handleCellClick
      rw [Bool.not_eq_true] at hin
      rw [hin]
      simp
    refine ⟨fun _ => hfar, fun hle => absurd hcheb (by omega), ?_⟩
    rw [hfar]
    simp [hcheb]

/-- Witness for C3: on a fresh world, clicking (4,0) (distance 4) is
rejected as too far; clicking the empty in-range cell (1,1) while
empty-handed is rejected as an invalid action. -/
theorem C3_rejection_iff_witness :
    handleCellClick luckA freshWorld 4 0 = { freshWorld with statusPanel := tooFarMessage } ∧
    handleCellClick luckA freshWorld 1 1 = { freshWorld with statusPanel := cannotMessage } := by
  constructor
  · exact (C3_rejection_iff luckA freshWorld 4 0).1 (by decide)
  · refine (C3_rejection_iff luckA freshWorld 1 1).2.1 (by decide) (Or.inl ⟨rfl, ?_⟩)
    have e1 : luckA (spawnKey 1 1) = 1 / 2 := rfl
    have hm : mapGet freshWorld.modifiedCells (cellKey 1 1) = none := rfl
    unfold getCellToken
    rw [hm]
    unfold generateTokenFlyweight
    rw [e1]
    rw [if_neg (by norm_num : ¬(1 / 2 : ℚ) < 0.2)]

/-- C10: every manual-step invocation changes exactly one coordinate
component by exactly one unit — north is +1 on i, south −1 on i, east +1
on j, west −1 on j — and leaves the held token and the override store
unchanged. -/
theorem C10_manual_step (w : World) (d : Dir) :
    (manualMove w d).held = w.held ∧
    (manualMove w d).modifiedCells = w.modifiedCells ∧
    (match d with
     | .north => (manualMove w d).playerI = w.playerI + 1 ∧
                 (manualMove w d).playerJ = w.playerJ
     | .south => (manualMove w d).playerI = w.playerI - 1 ∧
                 (manualMove w d).playerJ = w.playerJ
     | .east => (manualMove w d).playerI = w.playerI ∧
                (manualMove w d).playerJ = w.playerJ + 1
     | .west => (manualMove w d).playerI = w.playerI ∧
                (manualMove w d).playerJ = w.playerJ - 1) := by
  cases d <;>
    simp [manualMove, movePlayer, dirDeltaI, dirDeltaJ] <;> omega

/-- C4: viewport culling never touches the override store — any sequence
of `updateCells` runs, at arbitrary map centers, leaves the store exactly
as it was — and no operation other than the explicit reset can empty a
non-empty store. -/
theorem C4_viewport_preserves_overrides :
    (∀ (w : World) (centers : List (ℤ × ℤ)),
      (centers.foldl (fun w c => updateCells w c.1 c.2) w).modifiedCells
        = w.modifiedCells) ∧
    (∀ (luck : String → ℚ) (w : World) (op : Op), op ≠ Op.reset →
      (step luck w op).modifiedCells = [] → w.modifiedCells = []) := by
  constructor
  · intro w centers
    induction centers generalizing w with
    | nil => rfl
    | cons c rest ih => rw [List.foldl_cons, ih]; rfl
  · intro luck w op hop hempty
    cases op with
    | click i j =>
        simp only [step] at hempty
        unfold handleCellClick at hempty
        by_cases hin : inRange w i j = true
        · rw [hin, if_pos rfl] at hempty
          rcases hh : w.held with _ | h <;>
            rcases hc : getCellToken luck w.modifiedCells i j with _ | v <;>
            simp only [hh, hc] at hempty
          · exact hempty
          · exact absurd hempty (mapSet_ne_nil _ _ _)
          · exact hempty
          · by_cases hev : h = v
            · subst hev
              rw [if_pos rfl] at hempty
              exact absurd hempty (mapSet_ne_nil _ _ _)
            · rw [if_neg hev] at hempty
              exact hempty
        · rw [Bool.not_eq_true] at hin
          rw [hin] at hempty
          simp at hempty
          exact hempty
    | move d => exact hempty
    | geo lat lng =>
        simp only [step] at hempty
        unfold geoUpdate at hempty
        by_cases hm : w.movementMode = MovementMode.geolocation
        · rw [if_pos hm] at hempty
          by_cases hseen : w.lastSeenCell = some (cellForLatLng lat lng)
          · rwa [if_pos hseen] at hempty
          · rwa [if_neg hseen] at hempty
        · rwa [if_neg hm] at hempty
    | mode m => exact hempty
    | reset => exact absurd rfl hop
    | viewport ci cj => exact hempty

/-- Witness for C4: one `updateCells` pass over a world holding one
override preserves the store, and a viewport operation on a fresh world
keeps the store empty. -/
theorem C4_viewport_preserves_overrides_witness :
    (([((5 : ℤ), (7 : ℤ))]).foldl (fun w c => updateCells w c.1 c.2)
        sampleStoreWorld).modifiedCells = sampleStoreWorld.modifiedCells ∧
    freshWorld.modifiedCells = [] :=
  ⟨C4_viewport_preserves_overrides.1 sampleStoreWorld [(5, 7)],
   C4_viewport_preserves_overrides.2 luckA freshWorld (Op.viewport 0 0)
     (by decide) rfl⟩

/-- C5: for every coordinate, `generate` spawns a token iff the first
draw is below 0.2, and then the value is 1 for a second draw below 0.33,
2 for a second draw in [0.33, 0.66), and 4 otherwise; with the first draw
at or above 0.2 the result is absent. -/
theorem C5_generation_thresholds (luck : String → ℚ) (i j : ℤ) :
    ((∃ v, generateTokenFlyweight luck i j = some v) ↔
      luck (spawnKey i j) < 0.2) ∧
    (luck (spawnKey i j) < 0.2 → luck (valueKey i j) < 0.33 →
      generateTokenFlyweight luck i j = some 1) ∧
    (luck (spawnKey i j) < 0.2 → 0.33 ≤ luck (valueKey i j) →
      luck (valueKey i j) < 0.66 → generateTokenFlyweight luck i j = some 2) ∧
    (luck (spawnKey i j) < 0.2 → 0.66 ≤ luck (valueKey i j) →
      generateTokenFlyweight luck i j = some 4) ∧
    (0.2 ≤ luck (spawnKey i j) → generateTokenFlyweight luck i j = none) := by
  unfold generateTokenFlyweight
  refine ⟨⟨?_, ?_⟩, ?_, ?_, ?_, ?_⟩
  · rintro ⟨v, hv⟩
    by_contra hge
    rw [if_neg hge] at hv
    exact Option.noConfusion hv
  · intro hlt
    rw [if_pos hlt]
    by_cases h1 : luck (valueKey i j) < 0.33
    · exact ⟨1, by show (if luck (valueKey i j) < 0.33 then (some 1 : Option ℤ)
        else if luck (valueKey i j) < 0.66 then some 2 else some 4) = some 1
                   rw [if_pos h1]⟩
    · by_cases h2 : luck (valueKey i j) < 0.66
      · exact ⟨2, by show (if luck (valueKey i j) < 0.33 then (some 1 : Option ℤ)
          else if luck (valueKey i j) < 0.66 then some 2 else some 4) = some 2
                     rw [if_neg h1, if_pos h2]⟩
      · exact ⟨4, by show (if luck (valueKey i j) < 0.33 then (some 1 : Option ℤ)
          else if luck (valueKey i j) < 0.66 then some 2 else some 4) = some 4
                     rw [if_neg h1, if_neg h2]⟩
  · intro h1 h2
    rw [if_pos h1, if_pos h2]
  · intro h1 h2 h3
    rw [if_pos h1, if_neg (not_lt.mpr h2), if_pos h3]
  · intro h1 h2
    have h33 : ¬luck (valueKey i j) < 0.33 :=
      not_lt.mpr (le_trans (by norm_num) h2)
    rw [if_pos h1, if_neg h33, if_neg (not_lt.mpr h2)]
  · intro hge
    rw [if_neg (not_lt.mpr hge)]

/-- Witness for C5 at the spec's Scenario 1: draws (0.1, 0.5) at (0,0)
produce a token of value 2. -/
theorem C5_generation_thresholds_witness :
    generateTokenFlyweight luckS 0 0 = some 2 ∧
    luckS (spawnKey 0 0) < 0.2 ∧ (0.33 : ℚ) ≤ luckS (valueKey 0 0) ∧
    luckS (valueKey 0 0) < 0.66 := by
  have e1 : luckS (spawnKey 0 0) = 1 / 10 := rfl
  have e2 : luckS (valueKey 0 0) = 1 / 2 := rfl
  have h1 : luckS (spawnKey 0 0) < 0.2 := by rw [e1]; norm_num
  have h2 : (0.33 : ℚ) ≤ luckS (valueKey 0 0) := by rw [e2]; norm_num
  have h3 : luckS (valueKey 0 0) < 0.66 := by rw [e2]; norm_num
  exact ⟨(C5_generation_thresholds luckS 0 0).2.2.1 h1 h2 h3, h1, h2, h3⟩

/-- A stored snapshot whose `playerI` is malformed (a boolean) but whose
`playerJ` is a valid number. -/
def malformedSnapshot : JSVal :=
  .obj [("playerI", .bool true), ("playerJ", .num 2), ("held", JSVal.null),
        ("modifiedCells", .obj []), ("movementMode", .str "buttons")]

/-- Counterexample to C6: a malformed (boolean) `playerI` does not fall
back to the default 0 — `Number(true)` makes it load as 1. -/
theorem C6_load_counterexample :
    (loadState (fun _ => none) (.parsed malformedSnapshot)).playerI = some 1 ∧
    (loadState (fun _ => none) (.parsed malformedSnapshot)).playerJ = some 2 ∧
    defaultLoaded.playerI = some 0 ∧ (1 : ℚ) ≠ 0 :=
  ⟨rfl, rfl, rfl, by norm_num⟩

/-- C6 as amended: `load()` defaults the whole snapshot when storage is
missing or unparseable, and defaults an individual field only when it is
absent or null; numeric `playerI`/`playerJ` values are honored, and a
snapshot whose overrides field is absent or null restores as an empty
override store alongside the honored position. -/
theorem C6_load_field_defaults (strToNum : String → Option ℚ)
    (fs : List (String × JSVal)) (a b : ℚ)
    (hI : lookupField fs "playerI" = some (.num a))
    (hJ : lookupField fs "playerJ" = some (.num b))
    (hM : lookupField fs "modifiedCells" = none ∨
      lookupField fs "modifiedCells" = some JSVal.null) :
    (loadState strToNum (.parsed (.obj fs))).playerI = some a ∧
    (loadState strToNum (.parsed (.obj fs))).playerJ = some b ∧
    (loadState strToNum (.parsed (.obj fs))).modifiedCells = .obj [] ∧
    restoredOverrides (loadState strToNum (.parsed (.obj fs))) = [] ∧
    loadState strToNum .missing = defaultLoaded ∧
    loadState strToNum .corrupt = defaultLoaded := by
  have hmc : orDefault (jsGet (.obj fs) "modifiedCells") (.obj []) = .obj [] := by
    rcases hM with h | h <;> simp [jsGet, orDefault, h]
  refine ⟨?_, ?_, ?_, ?_, rfl, rfl⟩
  · simp [loadState, jsGet, hI, orDefault, jsNumber]
  · simp [loadState, jsGet, hJ, orDefault, jsNumber]
  · simpa [loadState] using hmc
  · simp only [restoredOverrides, loadState]
    rw [hmc]
    rfl

/-- A snapshot carrying a valid position and a null overrides field. -/
def overridesNullSnapshot : List (String × JSVal) :=
  [("playerI", .num 5), ("playerJ", .num 7), ("modifiedCells", JSVal.null)]

/-- Witness for the amended C6: position (5,7) is honored while the null
overrides field restores as the empty store. -/
theorem C6_load_field_defaults_witness :
    (loadState (fun _ => none) (.parsed (.obj overridesNullSnapshot))).playerI
      = some 5 ∧
    (loadState (fun _ => none) (.parsed (.obj overridesNullSnapshot))).playerJ
      = some 7 ∧
    (loadState (fun _ => none) (.parsed (.obj overridesNullSnapshot))).modifiedCells
      = .obj [] ∧
    restoredOverrides (loadState (fun _ => none)
      (.parsed (.obj overridesNullSnapshot))) = [] ∧
    loadState (fun _ => none) .missing = defaultLoaded ∧
    loadState (fun _ => none) .corrupt = defaultLoaded :=
  C6_load_field_defaults (fun _ => none) overridesNullSnapshot 5 7 rfl rfl
    (Or.inr rfl)

/-- Counterexample to C8: right after the confirmed New Game handler
returns, the durable snapshot is *not* deleted — the handler finishes
with `setMode` and `saveState`, both of which re-create it. -/
theorem C8_reset_counterexample :
    ¬(newGame sampleStoreWorld).storage = none := by
  have hst : (newGame sampleStoreWorld).storage
      = some { playerI := 0, playerJ := 0, held := none, modifiedCells := [],
               movementMode := .buttons } := rfl
  rw [hst]
  exact fun h => Option.noConfusion h

/-- C8 as amended: the confirmed New Game handler clears durable storage
and restores the default in-memory state — position (0,0), nothing held,
empty override store, button mode — and then immediately write-through
saves, so the stored snapshot ends up equal to the serialized default
state rather than staying deleted. -/
theorem C8_reset_restores_defaults (w : World) :
    (newGame w).playerI = 0 ∧ (newGame w).playerJ = 0 ∧
    (newGame w).held = none ∧ (newGame w).modifiedCells = [] ∧
    (newGame w).movementMode = .buttons ∧
    (newGame w).storage
      = some { playerI := 0, playerJ := 0, held := none, modifiedCells := [],
               movementMode := .buttons } :=
  ⟨rfl, rfl, rfl, rfl, rfl, rfl⟩

/-- Every status-panel value the finished main.ts ever writes: the empty
initial string and the two rejection messages of `handleCellClick`. -/
def allowedStatuses : List String := ["", tooFarMessage, cannotMessage]

theorem statusPanel_step_mem (luck : String → ℚ) (w : World) (op : Op)
    (hw : w.statusPanel ∈ allowedStatuses) :
    (step luck w op).statusPanel ∈ allowedStatuses := by
  cases op with
  | click i j =>
      simp only [step]
      unfold handleCellClick
      by_cases hin : inRange w i j = true
      · rw [hin, if_pos rfl]
        cases hh : w.held with
        | none =>
            cases hc : getCellToken luck w.modifiedCells i j with
            | none => simp only [hh, hc]; simp [allowedStatuses]
            | some v => simp only [hh, hc]; exact hw
        | some h =>
            cases hc : getCellToken luck w.modifiedCells i j with
            | none => simp only [hh, hc]; simp [allowedStatuses]
            | some v =>
                by_cases hev : h = v
                · subst hev
                  simp only [hh, hc, if_pos rfl]
                  exact hw
                · simp only [hh, hc, if_neg hev]
                  simp [allowedStatuses]
      · rw [Bool.not_eq_true] at hin
        rw [hin]
        simp [allowedStatuses]
  | move d => exact hw
  | geo lat lng =>
      simp only [step]
      unfold geoUpdate
      by_cases hm : w.movementMode = MovementMode.geolocation
      · rw [if_pos hm]
        by_cases hseen : w.lastSeenCell = some (cellForLatLng lat lng)
        · rw [if_pos hseen]; exact hw
        · rw [if_neg hseen]; exact hw
      · rw [if_neg hm]; exact hw
  | mode m => exact hw
  | reset => exact hw
  | viewport ci cj => exact hw

theorem statusPanel_runOps_mem (luck : String → ℚ) (w : World) (ops : List Op)
    (hw : w.statusPanel ∈ allowedStatuses) :
    (runOps luck w ops).statusPanel ∈ allowedStatuses := by
  induction ops generalizing w with
  | nil => exact hw
  | cons op rest ih => exact ih (step luck w op) (statusPanel_step_mem luck w op hw)

/-- C7 (the code at the claimed behavior): the finished main.ts never
surfaces a win signal — along every operation sequence from the default
state the status panel only ever holds the empty string or one of the two
rejection messages, and the win banner is not among them.  The earlier
draft's `updateInventoryUI` did raise the banner, but only for a *held*
token at or above `WIN_VALUE` (so never directly after a merge, which
empties the hand). -/
theorem C7_no_win_signal :
    (∀ (luck : String → ℚ) (ops : List Op),
      (runOps luck defaultWorld ops).statusPanel ∈ allowedStatuses) ∧
    allowedStatuses.contains winMessage = false ∧
    updateInventoryUIDraftStatus (some WIN_VALUE) = winMessage ∧
    updateInventoryUIDraftStatus none = "" := by
  refine ⟨fun luck ops => statusPanel_runOps_mem luck defaultWorld ops ?_,
    by decide, by decide, rfl⟩
  show ("" : String) ∈ allowedStatuses
  simp [allowedStatuses]

/-- Token values are positive powers of two. -/
def isPowTwo (v : ℤ) : Prop := ∃ n : ℕ, v = 2 ^ n

/-- Every token in the session — the held one and every one recorded in
the override store — is a positive power of two. -/
def TokensPowTwo (w : World) : Prop :=
  (∀ v, w.held = some v → isPowTwo v) ∧
  (∀ k c, mapGet w.modifiedCells k = some c →
    ∀ v, c.token = some v → isPowTwo v)

theorem generateTokenFlyweight_values (luck : String → ℚ) (i j v : ℤ)
    (h : generateTokenFlyweight luck i j = some v) :
    v = 1 ∨ v = 2 ∨ v = 4 := by
  have h' : (if luck (spawnKey i j) < 0.2 then
      if luck (valueKey i j) < 0.33 then (some 1 : Option ℤ)
      else if luck (valueKey i j) < 0.66 then some 2 else some 4
    else none) = some v := h
  by_cases h1 : luck (spawnKey i j) < 0.2
  · rw [if_pos h1] at h'
    by_cases h2 : luck (valueKey i j) < 0.33
    · rw [if_pos h2] at h'
      injection h' with h''
      exact Or.inl h''.symm
    · rw [if_neg h2] at h'
      by_cases h3 : luck (valueKey i j) < 0.66
      · rw [if_pos h3] at h'
        injection h' with h''
        exact Or.inr (Or.inl h''.symm)
      · rw [if_neg h3] at h'
        injection h' with h''
        exact Or.inr (Or.inr h''.symm)
  · rw [if_neg h1] at h'
    exact Option.noConfusion h' 

theorem getCellToken_powTwo (luck : String → ℚ) (w : World) (i j v : ℤ)
    (hw : TokensPowTwo w)
    (hc : getCellToken luck w.modifiedCells i j = some v) : isPowTwo v := by
  unfold getCellToken at hc
  cases hm : mapGet w.modifiedCells (cellKey i j) with
  | some st =>
      rw [hm] at hc
      exact hw.2 (cellKey i j) st hm v hc
  | none =>
      rw [hm] at hc
      rcases generateTokenFlyweight_values luck i j v hc with h | h | h <;> subst h
      · exact ⟨0, rfl⟩
      · exact ⟨1, rfl⟩
      · exact ⟨2, rfl⟩

theorem handleCellClick_pickup_eq (luck : String → ℚ) (w : World) (i j v : ℤ)
    (hin : inRange w i j = true) (hh : w.held = none)
    (hc : getCellToken luck w.modifiedCells i j = some v) :
    handleCellClick luck w i j
      = saveState (updateInventoryUI
          (setCellToken { w with held := some v } i j none)) := by
  unfold handleCellClick
  rw [hin, if_pos rfl]
  simp only [hh, hc]

theorem handleCellClick_merge_eq (luck : String → ℚ) (w : World) (i j v : ℤ)
    (hin : inRange w i j = true) (hh : w.held = some v)
    (hc : getCellToken luck w.modifiedCells i j = some v) :
    handleCellClick luck w i j
      = saveState (updateInventoryUI
          (setCellToken { w with held := none } i j (some (v * 2)))) := by
  unfold handleCellClick
  rw [hin, if_pos rfl]
  simp only [hh, hc]
  rw [if_true]

theorem handleCellClick_mismatch_eq (luck : String → ℚ) (w : World) (i j h v : ℤ)
    (hin : inRange w i j = true) (hh : w.held = some h)
    (hc : getCellToken luck w.modifiedCells i j = some v) (hne : h ≠ v) :
    handleCellClick luck w i j = { w with statusPanel := cannotMessage } := by
  unfold handleCellClick
  rw [hin, if_pos rfl]
  simp only [hh, hc, if_neg hne]

theorem handleCellClick_emptyCell_eq (luck : String → ℚ) (w : World) (i j : ℤ)
    (hin : inRange w i j = true)
    (hc : getCellToken luck w.modifiedCells i j = none) :
    handleCellClick luck w i j = { w with statusPanel := cannotMessage } := by
  unfold handleCellClick
  rw [hin, if_pos rfl]
  cases hh : w.held with
  | none => simp only [hh, hc]
  | some h => simp only [hh, hc]

theorem handleCellClick_tooFar_eq (luck : String → ℚ) (w : World) (i j : ℤ)
    (hin : ¬inRange w i j = true) :
    handleCellClick luck w i j = { w with statusPanel := tooFarMessage } := by
  unfold handleCellClick
  rw [Bool.not_eq_true] at hin
  rw [hin]
  simp

theorem tokensPowTwo_step (luck : String → ℚ) (w : World) (op : Op)
    (hw : TokensPowTwo w) : TokensPowTwo (step luck w op) := by
  obtain ⟨hheld, hstore⟩ := hw
  cases op with
  | click i j =>
      simp only [step]
      by_cases hin : inRange w i j = true
      · rcases hh : w.held with _ | h
        · rcases hc : getCellToken luck w.modifiedCells i j with _ | v
          · rw [handleCellClick_emptyCell_eq luck w i j hin hc]
            exact ⟨fun u hu => hheld u hu, fun k c hk u hu => hstore k c hk u hu⟩
          · have hvpow : isPowTwo v :=
              getCellToken_powTwo luck w i j v ⟨hheld, hstore⟩ hc
            rw [handleCellClick_pickup_eq luck w i j v hin hh hc]
            constructor
            · intro u hu
              have hu2 : some v = some u := hu
              injection hu2 with hu3
              exact hu3 ▸ hvpow
            · intro k c hk u hu
              have hk2 : mapGet
                  (mapSet w.modifiedCells (cellKey i j) { token := none }) k
                  = some c := hk
              rw [mapGet_mapSet] at hk2
              split_ifs at hk2 with hkk
              · injection hk2 with hk3
                rw [← hk3] at hu
                exact Option.noConfusion hu
              · exact hstore k c hk2 u hu
        · rcases hc : getCellToken luck w.modifiedCells i j with _ | v
          · rw [handleCellClick_emptyCell_eq luck w i j hin hc]
            exact ⟨fun u hu => hheld u hu, fun k c hk u hu => hstore k c hk u hu⟩
          · by_cases hev : h = v
            · subst hev
              have hvpow : isPowTwo h := hheld h hh
              rw [handleCellClick_merge_eq luck w i j h hin hh hc]
              constructor
              · intro u hu
                have hu2 : (none : Option ℤ) = some u := hu
                exact Option.noConfusion hu2
              · intro k c hk u hu
                have hk2 : mapGet
                    (mapSet w.modifiedCells (cellKey i j)
                      { token := some (h * 2) }) k = some c := hk
                rw [mapGet_mapSet] at hk2
                split_ifs at hk2 with hkk
                · injection hk2 with hk3
                  rw [← hk3] at hu
                  have hu2 : some (h * 2) = some u := hu
                  injection hu2 with hu3
                  obtain ⟨n, hn⟩ := hvpow
                  exact ⟨n + 1, by rw [← hu3, hn]; ring⟩
                · exact hstore k c hk2 u hu
            · rw [handleCellClick_mismatch_eq luck w i j h v hin hh hc hev]
              exact ⟨fun u hu => hheld u hu, fun k c hk u hu => hstore k c hk u hu⟩
      · rw [handleCellClick_tooFar_eq luck w i j hin]
        exact ⟨fun u hu => hheld u hu, fun k c hk u hu => hstore k c hk u hu⟩
  | move d => exact ⟨hheld, hstore⟩
  | geo lat lng =>
      simp only [step]
      unfold geoUpdate
      by_cases hm : w.movementMode = MovementMode.geolocation
      · rw [if_pos hm]
        by_cases hseen : w.lastSeenCell = some (cellForLatLng lat lng)
        · rw [if_pos hseen]; exact ⟨hheld, hstore⟩
        · rw [if_neg hseen]; exact ⟨hheld, hstore⟩
      · rw [if_neg hm]; exact ⟨hheld, hstore⟩
  | mode m => exact ⟨hheld, hstore⟩
  | reset =>
      constructor
      · intro v hv
        have hv2 : (none : Option ℤ) = some v := hv
        exact Option.noConfusion hv2
      · intro k c hk
        have hk2 : mapGet [] k = some c := hk
        exact Option.noConfusion hk2
  | viewport ci cj => exact ⟨hheld, hstore⟩

theorem tokensPowTwo_runOps (luck : String → ℚ) (w : World) (ops : List Op)
    (hw : TokensPowTwo w) : TokensPowTwo (runOps luck w ops) := by
  induction ops generalizing w with
  | nil => exact hw
  | cons op rest ih => exact ih (step luck w op) (tokensPowTwo_step luck w op hw)

/-- C9: starting from the default state, after any sequence of engine
operations every held token and every token recorded in the override
store is a positive power of two; generation itself only ever produces
the values 1, 2 and 4. -/
theorem C9_power_of_two_invariant :
    (∀ (luck : String → ℚ) (i j v : ℤ),
      generateTokenFlyweight luck i j = some v → v = 1 ∨ v = 2 ∨ v = 4) ∧
    (∀ (luck : String → ℚ) (ops : List Op),
      TokensPowTwo (runOps luck defaultWorld ops)) := by
  constructor
  · exact generateTokenFlyweight_values
  · intro luck ops
    refine tokensPowTwo_runOps luck defaultWorld ops ⟨?_, ?_⟩
    · intro v hv
      have hv2 : (none : Option ℤ) = some v := hv
      exact Option.noConfusion hv2
    · intro k c hk
      have hk2 : mapGet [] k = some c := hk
      exact Option.noConfusion hk2

/-- Witness for C9: under `luckA`, the generator yields the value 4 at
(2,1), that value is in {1, 2, 4}, and the invariant holds concretely
after picking it up. -/
theorem C9_power_of_two_invariant_witness :
    generateTokenFlyweight luckA 2 1 = some 4 ∧
    ((4 : ℤ) = 1 ∨ (4 : ℤ) = 2 ∨ (4 : ℤ) = 4) ∧
    TokensPowTwo (runOps luckA defaultWorld [Op.click 2 1]) := by
  have hg : generateTokenFlyweight luckA 2 1 = some 4 := getCellToken_luckA_21
  exact ⟨hg, C9_power_of_two_invariant.1 luckA 2 1 4 hg,
    C9_power_of_two_invariant.2 luckA [Op.click 2 1]⟩

end D3
